import Mathlib

/-!
Shallow embedding of the channel core of `martd` (src/channels.go) in Lean 4,
together with theorems settling the frozen claims about it.

Conventions of the embedding:
* Go `int64` timestamps/durations become `Int` (no arithmetic is performed on
  them in this core, only comparisons, so overflow is not involved).
* Go `[]byte` payloads become `List Nat`.
* Go `uint` sizes/indices become `Nat`.
* Go pointers that may be `nil` become `Option`; a nil-pointer dereference is
  modelled as the operation returning `none` (no value is produced).
* `time.Now().UnixNano()` is passed in as an explicit `now : Int` parameter.
* The per-channel mutex only serializes operations; each locked critical
  section is modelled as one pure state transition.
* A Go channel handle `chan *ChannelEvent` becomes a `Handle` with a buffer
  capacity and a pending queue; the waiter set `map chan *ChannelEvent bool`
  becomes a `List Handle` (insertion keeps it duplicate-free in the Go map).
* The registry `map[string]*Channel` becomes a function `String → Option Channel`;
  Go mutates channels through shared pointers, so an in-place mutation of a
  channel is modelled as updating the registry at its (immutable, unique) name.
-/

/-- src/channels.go: `Message` — payload bytes plus the creation timestamp,
which doubles as the message's etag. -/
structure Message where
  data : List Nat
  created : Int
deriving Repr, DecidableEq

/-- Error kinds of the history buffer (spec §7): `Empty` from the Peek
operations, `IndexOutOfRange` from `Ith`. -/
inductive BufError where
  | empty
  | indexOutOfRange
deriving Repr, DecidableEq

/-- Modelled from the spec: the `CircularMessageArray` implementation is not
under src/ (only its callers in channels.go are). Spec §3/§4.1: a fixed
capacity `N` ring store (0 means "retain nothing") holding the most recent
`≤ N` messages in publish order; index 0 is always the oldest retained,
index `length-1` the newest. We keep the retained messages oldest-first. -/
structure CircularMessageArray where
  cap : Nat
  msgs : List Message
deriving Repr, DecidableEq

/-- src/channels.go: `NewCircularMessageArray(size)` (constructor called by
`GetOrCreateChannel`); modelled from the spec: created empty with the given
fixed capacity. -/
def NewCircularMessageArray (size : Nat) : CircularMessageArray :=
  { cap := size, msgs := [] }

/-- Modelled from the spec (§4.1): `Push(message)` — if at capacity, overwrite
(discard exactly) the single oldest retained message; if capacity is 0 the
buffer holds nothing. -/
def CircularMessageArray.Push (b : CircularMessageArray) (m : Message) :
    CircularMessageArray :=
  if b.cap = 0 then b
  else if b.msgs.length < b.cap then { b with msgs := b.msgs ++ [m] }
  else { b with msgs := b.msgs.tail ++ [m] }

/-- Modelled from the spec (§4.1): `Length()` — number of currently retained
messages. -/
def CircularMessageArray.Length (b : CircularMessageArray) : Nat :=
  b.msgs.length

/-- Modelled from the spec (§4.1): `Ith(i)` — the i-th oldest retained message
for `0 ≤ i < Length()`, `IndexOutOfRange` otherwise. -/
def CircularMessageArray.Ith (b : CircularMessageArray) (i : Nat) :
    Except BufError Message :=
  match b.msgs.get? i with
  | some m => .ok m
  | none => .error .indexOutOfRange

/-- Modelled from the spec (§4.1): `PeekOldest()` — fails with `Empty` when
`Length() == 0`. -/
def CircularMessageArray.PeekOldest (b : CircularMessageArray) :
    Except BufError Message :=
  match b.msgs.head? with
  | some m => .ok m
  | none => .error .empty

/-- Modelled from the spec (§4.1): `PeekNewest()` — fails with `Empty` when
`Length() == 0`. -/
def CircularMessageArray.PeekNewest (b : CircularMessageArray) :
    Except BufError Message :=
  match b.msgs.getLast? with
  | some m => .ok m
  | none => .error .empty

/-- src/channels.go: `ChannelEvent` holds a pointer to the channel and to the
published message. Channels are identified by their unique, immutable name,
so the channel pointer is modelled by the channel's name. -/
structure ChannelEvent where
  chanName : String
  mesg : Message
deriving Repr, DecidableEq

/-- A subscriber's notification handle: a Go `chan *ChannelEvent` with a
buffer capacity and the queue of events sent but not yet received. The `id`
stands for the handle's identity (distinct `make(chan ...)` results are
distinct map keys even when observationally equal). -/
structure Handle where
  id : Nat
  capacity : Nat
  pending : List ChannelEvent
deriving Repr, DecidableEq

/-- src/channels.go: `Channel`. `messages = none` models the nil
`*CircularMessageArray` of a channel that exists in the registry but has not
been configured by `GetOrCreateChannel` yet. -/
structure Channel where
  name : String
  size : Nat
  life : Int
  key : String
  clients : List Handle
  messages : Option CircularMessageArray
  one2one : Bool
  inited : Bool
deriving Repr, DecidableEq

/-- src/channels.go:93-119, `HasNew(etag)`. Faithful rendering:
* the outer guard `c.Messages != nil && c.Messages.Length() > 0`;
* `oldest, _ := c.Messages.PeekOldest()` with `oldest.Created > etag`
  returning `(true, 0)`;
* the scan `for i := uint(0); i < ml-1; i++ { if etag == Ith(i).Created
  return (true, i+1) }`, which examines exactly the indices `0 .. ml-2`,
  i.e. every retained message except the newest, oldest first — rendered as
  the first index of `msgs.dropLast` whose `created` equals `etag`;
* the final `return false, 0`. -/
def Channel.HasNew (c : Channel) (etag : Int) : Bool × Nat :=
  match c.messages with
  | none => (false, 0)
  | some buf =>
    if 0 < buf.Length then
      match buf.PeekOldest with
      | .error _ => (false, 0)
      | .ok oldest =>
        if oldest.created > etag then
          (true, 0)
        else
          match buf.msgs.dropLast.findIdx? (fun m => m.created == etag) with
          | some i => (true, i + 1)
          | none => (false, 0)
    else (false, 0)

/-- src/channels.go:77-91, `Pub(data)`. Under the channel lock: stamp a new
message with the current nanosecond time, push it into the history buffer,
send a `ChannelEvent` referencing this channel and this message to every
registered waiter handle, clear the waiter set, return a nil error. On an
unconfigured channel `c.Messages.Push(m)` dereferences a nil pointer, so no
value is produced (`none`). Result: the updated channel, the list of
(handle, event) deliveries performed, and the returned Go error. -/
def Channel.Pub (c : Channel) (now : Int) (data : List Nat) :
    Option (Channel × List (Handle × ChannelEvent) × Option String) :=
  match c.messages with
  | none => none
  | some buf =>
    let m : Message := { data := data, created := now }
    let ev : ChannelEvent := { chanName := c.name, mesg := m }
    some ({ c with messages := some (buf.Push m), clients := [] },
          c.clients.map (fun h => (h, ev)),
          none)

/-- Modelled from the spec (§4.3): the handoff `evch <- event` at
src/channels.go:85 is a plain Go channel send; it can be accepted immediately
iff the handle's buffer is not full. The code creating the handles is not
under src/. -/
def Handle.full (h : Handle) : Bool :=
  decide (h.capacity ≤ h.pending.length)

/-- Whether the delivery loop of `Pub` (src/channels.go:84-86) blocks the
publisher: it does iff some registered handle cannot accept the single event
sent to it immediately. -/
def Channel.PubBlocks (c : Channel) : Bool :=
  c.clients.any Handle.full

/-- The per-channel record stored into a `SubResponse` by `Append`
(`&ChanResponse{etag, payload}`); modelled from the spec (§4.5/§6): its Go
declaration is not under src/, its fields are the collected etag and the
ordered payload sequence. Go converts each `[]byte` payload to a string;
the bytes are kept as they are. -/
structure ChanResponse where
  etag : Int
  payload : List (List Nat)
deriving Repr, DecidableEq

/-- The response envelope `Append` writes into (`resp.Channels[ch.Name] = ...`);
modelled from the spec (§6): its Go declaration is not under src/, it maps a
channel name to that channel's collected record. -/
structure SubResponse where
  channels : String → Option ChanResponse

/-- src/channels.go:145-158, `Append(resp, ith)` (the spec's `CollectFrom`).
Under the channel lock: `payload := []string{}; etag := int64(0)`, then for
`i := ith; i < ml; i++` append `string(Ith(i).Data)` to the payload and set
`etag = Ith(i).Created`; finally store `&ChanResponse{etag, payload}` under
the channel's name. The messages visited are exactly `msgs.drop ith`, oldest
first, rendered as a left fold. `ch.Messages.Length()` on an unconfigured
channel dereferences a nil pointer, so no value is produced. -/
def Channel.Append (c : Channel) (resp : SubResponse) (ith : Nat) :
    Option SubResponse :=
  match c.messages with
  | none => none
  | some buf =>
    let acc := (buf.msgs.drop ith).foldl
      (fun (a : List (List Nat) × Int) m => (a.1 ++ [m.data], m.created))
      ([], 0)
    some { channels := fun n =>
            if n = c.name then some { etag := acc.2, payload := acc.1 }
            else resp.channels n }

/-- The structured record `{"etag": <int64>}` that `Json` marshals
(spec §6 `Snapshot`). -/
structure EtagRecord where
  etag : Int
deriving Repr, DecidableEq

/-- src/channels.go:135-143, `Json()`. Under the channel lock:
`m, _ := c.Messages.PeekNewest()` with the error ignored, then marshal
`{"etag": m.Created}`. When the buffer is empty, `PeekNewest` fails and `m`
is nil, so `m.Created` dereferences a nil pointer; when the channel is
unconfigured, `c.Messages` itself is nil. Both are modelled as producing no
value. -/
def Channel.Json (c : Channel) : Option EtagRecord :=
  match c.messages with
  | none => none
  | some buf =>
    match buf.PeekNewest with
    | .ok m => some { etag := m.created }
    | .error _ => none

/-- The process-wide registry `Channels map[string]*Channel`
(src/channels.go:31-38), as the state threaded through the registry
operations. -/
abbrev Registry := String → Option Channel

/-- src/channels.go:66-75, `GetChannel_(name)`: return the existing channel,
or insert and return a fresh uninitialized one
(`&Channel{Name: name, Clients: make(...)}`; every other field is its Go
zero value). Returns the channel together with the (possibly extended)
registry. -/
def GetChannel_ (reg : Registry) (name : String) : Channel × Registry :=
  match reg name with
  | some ch => (ch, reg)
  | none =>
    let ch : Channel :=
      { name := name, size := 0, life := 0, key := "", clients := [],
        messages := none, one2one := false, inited := false }
    (ch, fun n => if n = name then some ch else reg n)

/-- src/channels.go:60-64, `GetChannel(name)`: `GetChannel_` under the global
registry lock. -/
def GetChannel (reg : Registry) (name : String) : Channel × Registry :=
  GetChannel_ reg name

/-- src/channels.go:40-58, `GetOrCreateChannel`. Under the global registry
lock: look up or insert via `GetChannel_`; if the channel is not yet
initialized, mark it initialized and set `Size`, `Life`, `One2One`, `Key`
and the fresh history buffer from the arguments; otherwise leave it
untouched. Go mutates the channel through the shared pointer held by the
map, modelled by updating the registry at the channel's name. Returns
`(ch, nil)` — the error is always nil. -/
def GetOrCreateChannel (reg : Registry) (name : String) (size : Nat)
    (life : Int) (one2one : Bool) (key : String) :
    Channel × Registry × Option String :=
  let p := GetChannel_ reg name
  if p.1.inited then
    (p.1, p.2, none)
  else
    let ch := { p.1 with
      inited := true, size := size, life := life, one2one := one2one,
      key := key, messages := some (NewCircularMessageArray size) }
    (ch, fun n => if n = name then some ch else p.2 n, none)

/-! ### Concrete fixtures

Small concrete states used by the witness and counterexample theorems below.
`bufABC` plays the spec §8 scenario after capacity-3 eviction: three retained
messages, oldest first, with strictly increasing timestamps. -/

/-- Default message used with `List.getD` when stating facts about retained
messages; the surrounding bounds always keep the default unused. -/
def dMsg : Message := { data := [], created := 0 }

def bufABC : CircularMessageArray :=
  { cap := 3, msgs := [⟨[1], 5⟩, ⟨[2], 7⟩, ⟨[3], 9⟩] }

def chABC : Channel :=
  { name := "c", size := 3, life := 0, key := "", clients := [],
    messages := some bufABC, one2one := false, inited := true }

def chEmptyBuf : Channel :=
  { name := "e", size := 3, life := 0, key := "", clients := [],
    messages := some { cap := 3, msgs := [] }, one2one := false,
    inited := true }

def chNilBuf : Channel :=
  { name := "u", size := 0, life := 0, key := "", clients := [],
    messages := none, one2one := false, inited := false }

def hIdle : Handle := { id := 1, capacity := 1, pending := [] }

def chWaited : Channel := { chABC with clients := [hIdle] }

def emptyResp : SubResponse := { channels := fun _ => none }

def regABC : Registry := fun n => if n = "c" then some chABC else none

/-! ### Theorems -/

theorem hasNew_sanity_resume : chABC.HasNew 7 = (true, 2) := by decide

theorem hasNew_sanity_newest : chABC.HasNew 9 = (false, 0) := by decide

/-- Helper: when the history is non-empty and the oldest retained message's
timestamp is strictly greater than `etag`, `HasNew` takes the
`oldest.Created > etag` branch (src/channels.go:104-106). -/
theorem hasNew_oldest_gt (c : Channel) (buf : CircularMessageArray)
    (etag : Int) (hbuf : c.messages = some buf) (hne : 0 < buf.Length)
    (hgt : etag < (buf.msgs.getD 0 dMsg).created) :
    c.HasNew etag = (true, 0) := by
  cases hm : buf.msgs with
  | nil => simp [CircularMessageArray.Length, hm] at hne
  | cons hd tl =>
    have hpeek : buf.PeekOldest = .ok hd := by
      simp [CircularMessageArray.PeekOldest, hm]
    have hgt2 : hd.created > etag := by
      rw [hm] at hgt
      simpa using hgt
    simp [Channel.HasNew, hbuf, hne, hpeek, hgt2]

/-- C2: for every channel with non-empty history and every `etag ≠ 0`, if the
oldest retained message's `createdAt` is strictly greater than `etag` (the
caller's position was evicted from the retention window), `HasNew etag`
returns `(true, 0)`: a full resync from the oldest retained message. -/
theorem hasNew_evicted_full_resync (c : Channel) (buf : CircularMessageArray)
    (etag : Int) (hbuf : c.messages = some buf) (hne : 0 < buf.Length)
    (hetag : etag ≠ 0) (hgt : etag < (buf.msgs.getD 0 dMsg).created) :
    c.HasNew etag = (true, 0) :=
  hasNew_oldest_gt c buf etag hbuf hne hgt

/-- Witness for C2 on the spec §8 scenario: etag 2 predates the oldest
retained timestamp 5, so the whole window is replayed. -/
theorem hasNew_evicted_full_resync_w : chABC.HasNew 2 = (true, 0) :=
  hasNew_evicted_full_resync chABC bufABC 2 rfl (by decide) (by decide)
    (by decide)

/-- C3: `HasNew 0` returns `(true, 0)` whenever the channel retains any
history (every retained timestamp of the running program is a positive
`UnixNano`, captured by the positivity hypothesis on the oldest), and returns
`(false, 0)` when the history buffer is nil (not yet configured) or empty. -/
theorem hasNew_zero_semantics (c : Channel) :
    (∀ buf, c.messages = some buf → 0 < buf.Length →
      0 < (buf.msgs.getD 0 dMsg).created → c.HasNew 0 = (true, 0)) ∧
    (c.messages = none → c.HasNew 0 = (false, 0)) ∧
    (∀ buf, c.messages = some buf → buf.Length = 0 →
      c.HasNew 0 = (false, 0)) := by
  refine ⟨fun buf hbuf hne hpos => hasNew_oldest_gt c buf 0 hbuf hne hpos,
    fun hn => ?_, fun buf hbuf hlen => ?_⟩
  · simp [Channel.HasNew, hn]
  · simp [Channel.HasNew, hbuf, hlen]

/-- Witness for C3: a channel with history, one with a nil buffer, and one
with an empty buffer. -/
theorem hasNew_zero_semantics_w :
    chABC.HasNew 0 = (true, 0) ∧ chNilBuf.HasNew 0 = (false, 0) ∧
      chEmptyBuf.HasNew 0 = (false, 0) :=
  ⟨(hasNew_zero_semantics chABC).1 bufABC rfl (by decide) (by decide),
   (hasNew_zero_semantics chNilBuf).2.1 rfl,
   (hasNew_zero_semantics chEmptyBuf).2.2 { cap := 3, msgs := [] } rfl rfl⟩

/-- Helper: when the history is non-empty and the oldest retained timestamp
is not greater than `etag`, `HasNew` falls through to the scan loop over all
retained messages but the newest (src/channels.go:108-116). -/
theorem hasNew_oldest_le_scan (c : Channel) (buf : CircularMessageArray)
    (etag : Int) (hbuf : c.messages = some buf) (hne : 0 < buf.Length)
    (hle : (buf.msgs.getD 0 dMsg).created ≤ etag) :
    c.HasNew etag =
      match buf.msgs.dropLast.findIdx? (fun m => m.created == etag) with
      | some i => (true, i + 1)
      | none => (false, 0) := by
  cases hm : buf.msgs with
  | nil => simp [CircularMessageArray.Length, hm] at hne
  | cons hd tl =>
    have hpeek : buf.PeekOldest = .ok hd := by
      simp [CircularMessageArray.PeekOldest, hm]
    have hle2 : ¬hd.created > etag := by
      rw [hm] at hle
      simpa using hle
    simp [Channel.HasNew, hbuf, hne, hpeek, hle2, hm]

/-- C1: for every channel with non-empty history and every `etag ≠ 0` with
the oldest retained timestamp `≤ etag`, if the first retained message whose
`createdAt` equals `etag` sits at index `j`, then: when `j` is not the
newest index, `HasNew etag = (true, j + 1)`; when the match is the newest
retained message, `HasNew etag` reports no new data. -/
theorem hasNew_scan_first_match (c : Channel) (buf : CircularMessageArray)
    (etag : Int) (j : Nat) (hbuf : c.messages = some buf)
    (hne : 0 < buf.Length) (hetag : etag ≠ 0)
    (hold : (buf.msgs.getD 0 dMsg).created ≤ etag)
    (hj : j < buf.Length)
    (hjm : (buf.msgs.getD j dMsg).created = etag)
    (hfirst : ∀ k, k < j → (buf.msgs.getD k dMsg).created ≠ etag) :
    (j + 1 < buf.Length → c.HasNew etag = (true, j + 1)) ∧
    (j + 1 = buf.Length → (c.HasNew etag).1 = false) := by
  have hj2 : j < buf.msgs.length := hj
  have hred := hasNew_oldest_le_scan c buf etag hbuf hne hold
  constructor
  · intro hlt
    have hlt2 : j + 1 < buf.msgs.length := hlt
    have hfind : buf.msgs.dropLast.findIdx? (fun m => m.created == etag)
        = some j := by
      rw [List.findIdx?_eq_some_iff_getElem]
      have hjlen : j < buf.msgs.dropLast.length := by
        rw [List.length_dropLast]
        omega
      refine ⟨hjlen, ?_, ?_⟩
      · rw [List.getElem_dropLast]
        rw [List.getD_eq_getElem _ _ hj2] at hjm
        simp [hjm]
      · intro k hk
        rw [List.getElem_dropLast]
        have hkne := hfirst k hk
        rw [List.getD_eq_getElem _ _ (Nat.lt_trans hk hj2)] at hkne
        simp [hkne]
    rw [hred, hfind]
  · intro heq
    have heq2 : j + 1 = buf.msgs.length := heq
    have hfind : buf.msgs.dropLast.findIdx? (fun m => m.created == etag)
        = none := by
      rw [List.findIdx?_eq_none_iff]
      intro x hx
      obtain ⟨k, hk, hxk⟩ := List.mem_iff_getElem.mp hx
      have hklen : k < buf.msgs.length - 1 := by
        rw [List.length_dropLast] at hk
        omega
      have hkj : k < j := by omega
      have hkne := hfirst k hkj
      rw [List.getD_eq_getElem _ _ (Nat.lt_trans hkj hj2)] at hkne
      rw [← hxk, List.getElem_dropLast]
      simp [hkne]
    rw [hred, hfind]

/-- Witness for C1 on the spec §8 scenario (timestamps 5, 7, 9): etag 7
matches index 1 and resumes at index 2; etag 9 matches the newest retained
message and reports no new data. -/
theorem hasNew_scan_first_match_w :
    chABC.HasNew 7 = (true, 2) ∧ (chABC.HasNew 9).1 = false :=
  ⟨(hasNew_scan_first_match chABC bufABC 7 1 rfl (by decide) (by decide)
      (by decide) (by decide) (by decide)
      (fun k hk => by interval_cases k <;> decide)).1 (by decide),
   (hasNew_scan_first_match chABC bufABC 9 2 rfl (by decide) (by decide)
      (by decide) (by decide) (by decide)
      (fun k hk => by interval_cases k <;> decide)).2 (by decide)⟩

/-- C9: whenever `HasNew etag` reports new data with resume index `r`, the
history buffer is configured and non-empty and `r` is a valid retained index
(`r < Length`), so the resume index never points past the newest retained
message. -/
theorem hasNew_resume_in_range (c : Channel) (etag : Int) (r : Nat)
    (h : c.HasNew etag = (true, r)) :
    ∃ buf, c.messages = some buf ∧ 0 < buf.Length ∧ r < buf.Length := by
  cases hc : c.messages with
  | none => simp [Channel.HasNew, hc] at h
  | some buf =>
    by_cases hne : 0 < buf.Length
    · cases hpeek : buf.PeekOldest with
      | error e => simp [Channel.HasNew, hc, hne, hpeek] at h
      | ok oldest =>
        by_cases hgt : oldest.created > etag
        · simp [Channel.HasNew, hc, hne, hpeek, hgt] at h
          have hlen0 : 0 < buf.msgs.length := hne
          exact ⟨buf, rfl, hne, show r < buf.msgs.length by omega⟩
        · cases hfind :
              buf.msgs.dropLast.findIdx? (fun m => m.created == etag) with
          | none => simp [Channel.HasNew, hc, hne, hpeek, hgt, hfind] at h
          | some i =>
            simp [Channel.HasNew, hc, hne, hpeek, hgt, hfind] at h
            have hi : i < buf.msgs.dropLast.length :=
              (List.findIdx?_eq_some_iff_findIdx_eq.mp hfind).1
            have hl : buf.msgs.dropLast.length = buf.msgs.length - 1 :=
              List.length_dropLast _
            have hlen0 : 0 < buf.msgs.length := hne
            exact ⟨buf, rfl, hne, show r < buf.msgs.length by omega⟩
    · simp [Channel.HasNew, hc, hne] at h

/-- Witness for C9: on the three-message channel, etag 7 resumes at index 2,
which is a valid retained index. -/
theorem hasNew_resume_in_range_w :
    ∃ buf, chABC.messages = some buf ∧ 0 < buf.Length ∧ 2 < buf.Length :=
  hasNew_resume_in_range chABC 7 2 (by decide)

/-- Helper: the collection loop of `Append` (src/channels.go:152-156) as a
fold — the payload accumulates the visited messages' bytes in order, and the
etag ends as the last visited message's timestamp (or the initial value when
nothing is visited). -/
theorem collect_foldl (l : List Message) (p0 : List (List Nat)) (e0 : Int) :
    l.foldl (fun (a : List (List Nat) × Int) m => (a.1 ++ [m.data], m.created))
        (p0, e0) =
      (p0 ++ l.map Message.data, ((l.getLast?).map Message.created).getD e0) := by
  induction l generalizing p0 e0 with
  | nil => simp
  | cons m t ih =>
    rw [List.foldl_cons, ih]
    cases t with
    | nil => simp
    | cons m2 t2 =>
      obtain ⟨y, hy⟩ : ∃ y, (m2 :: t2).getLast? = some y := by
        cases h2 : (m2 :: t2).getLast? with
        | none => exact absurd (List.getLast?_eq_none_iff.mp h2) (by simp)
        | some y => exact ⟨y, rfl⟩
      simp [hy]

/-- C4 (amended): for every channel with non-empty history, `Append` stores
under the channel's name (leaving other names untouched) the payloads of
every retained message from `startIndex` to the newest in order; the
returned etag equals the newest retained message's `createdAt` when
`startIndex` is a retained index, and is the initial value `0` (with an
empty payload) when `startIndex` is past the newest retained index. -/
theorem append_collect_spec (c : Channel) (buf : CircularMessageArray)
    (resp : SubResponse) (ith : Nat) (hbuf : c.messages = some buf)
    (hne : 0 < buf.Length) :
    ∃ r, c.Append resp ith = some r ∧
      (∀ n, n ≠ c.name → r.channels n = resp.channels n) ∧
      (ith < buf.Length →
        r.channels c.name = some
          { etag := (buf.msgs.getD (buf.Length - 1) dMsg).created,
            payload := (buf.msgs.drop ith).map Message.data }) ∧
      (buf.Length ≤ ith →
        r.channels c.name = some { etag := 0, payload := [] }) := by
  have hacc := collect_foldl (buf.msgs.drop ith) [] 0
  refine ⟨{ channels := fun n =>
      if n = c.name then
        some { etag :=
                 (((buf.msgs.drop ith).getLast?).map Message.created).getD 0,
               payload := (buf.msgs.drop ith).map Message.data }
      else resp.channels n }, ?_, ?_, ?_, ?_⟩
  · simp only [Channel.Append, hbuf, hacc, List.nil_append]
  · intro n hn
    dsimp only
    rw [if_neg hn]
  · intro hlt
    have hlen : ith < buf.msgs.length := hlt
    have h1 : (buf.msgs.drop ith).getLast? = buf.msgs[buf.msgs.length - 1]? := by
      rw [List.getLast?_eq_getElem?, List.getElem?_drop]
      congr 1
      rw [List.length_drop]
      omega
    have h2 : buf.msgs[buf.msgs.length - 1]? =
        some (buf.msgs.getD (buf.msgs.length - 1) dMsg) := by
      rw [List.getElem?_eq_getElem (by omega),
        List.getD_eq_getElem _ _ (by omega)]
    dsimp only
    rw [if_pos rfl, h1, h2]
    rfl
  · intro hge
    have hnil : buf.msgs.drop ith = [] := List.drop_eq_nil_of_le hge
    dsimp only
    rw [if_pos rfl, hnil]
    rfl

/-- Counterexample for C4: on a channel whose single newest timestamp is 9,
collecting from a start index past the newest retained index yields etag 0,
not the newest message's `createdAt`. -/
theorem append_past_end_etag_cex :
    (Channel.Append chABC emptyResp 3).map (fun r => r.channels "c") =
      some (some { etag := 0, payload := [] }) ∧
    bufABC.PeekNewest = .ok { data := [3], created := 9 } ∧
    (0 : Int) ≠ 9 :=
  ⟨rfl, rfl, by decide⟩

/-- Witness for C4 (amended): collecting from index 1 of the three-message
channel returns the last two payloads and etag 9; collecting from index 3
returns the empty payload and etag 0. -/
theorem append_collect_spec_w :
    ∃ r, chABC.Append emptyResp 1 = some r ∧
      r.channels "c" = some { etag := 9, payload := [[2], [3]] } := by
  obtain ⟨r, hr, hother, hin, hpast⟩ :=
    append_collect_spec chABC bufABC emptyResp 1 rfl (by decide)
  exact ⟨r, hr, hin (by decide)⟩

/-- C5: under the usage discipline the spec requires (every registered handle
is a buffered one-shot of capacity at least 1 that its owner has emptied by
waiting before re-registering), no send of the delivery loop blocks the
publisher; and the stored history and returned error of `Pub` are the same
whatever the waiter set is, including the empty one — publish never waits
for, or depends on, whether anyone is subscribed. -/
theorem pub_never_blocks (c : Channel) :
    ((∀ h, h ∈ c.clients → 1 ≤ h.capacity ∧ h.pending = []) →
      c.PubBlocks = false) ∧
    (∀ l now data,
      (Channel.Pub { c with clients := l } now data).map
          (fun r => (r.1.messages, r.2.2)) =
        (Channel.Pub { c with clients := [] } now data).map
          (fun r => (r.1.messages, r.2.2))) := by
  constructor
  · intro hcl
    simp only [Channel.PubBlocks, List.any_eq_false]
    intro h hm
    obtain ⟨hcap, hp⟩ := hcl h hm
    simp [Handle.full, hp]
    omega
  · intro l now data
    cases hc : c.messages with
    | none => simp [Channel.Pub, hc]
    | some buf => simp [Channel.Pub, hc]

/-- Witness for C5: a channel with one registered empty handle of capacity 1
is published to without blocking. -/
theorem pub_never_blocks_w : chWaited.PubBlocks = false :=
  (pub_never_blocks chWaited).1 (by decide)

/-- Counterexample for C6: on a channel looked up before any configuration
(`Messages` still nil), `Pub` dereferences a nil pointer inside `Push` and
returns no value at all, in particular not a nil error. -/
theorem pub_uninit_no_return : Channel.Pub chNilBuf 5 [1] = none := rfl

/-- C6 (amended): for every channel whose history buffer has been configured
and every payload, `Pub` returns a nil error. -/
theorem pub_nil_error (c : Channel) (buf : CircularMessageArray) (now : Int)
    (data : List Nat) (hbuf : c.messages = some buf) :
    ∃ c2 dl, c.Pub now data = some (c2, dl, none) := by
  refine ⟨{ c with
      messages := some (buf.Push { data := data, created := now }),
      clients := [] },
    c.clients.map (fun h =>
      (h, { chanName := c.name, mesg := { data := data, created := now } })),
    ?_⟩
  simp [Channel.Pub, hbuf]

/-- Witness for C6 (amended): publishing to the configured three-message
channel returns a nil error. -/
theorem pub_nil_error_w :
    ∃ c2 dl, Channel.Pub chABC 11 [4] = some (c2, dl, none) :=
  pub_nil_error chABC bufABC 11 [4] rfl

/-- C7: on an initialized channel, `Pub` stamps a new message with the
current nanosecond timestamp `now`, pushes it into the history buffer,
delivers to every currently registered waiter handle one `ChannelEvent`
referencing this channel and this message, clears the waiter set, and
returns a nil error. -/
theorem pub_delivers_and_clears (c : Channel) (buf : CircularMessageArray)
    (now : Int) (data : List Nat) (hbuf : c.messages = some buf) :
    c.Pub now data = some
      ({ c with messages := some (buf.Push { data := data, created := now }),
                clients := [] },
       c.clients.map (fun h =>
         (h, { chanName := c.name,
               mesg := { data := data, created := now } })),
       none) := by
  simp [Channel.Pub, hbuf]

/-- Witness for C7: publishing `[4]` at time 11 to the channel with one
waiter delivers one event carrying the new message to that waiter and
empties the waiter set. -/
theorem pub_delivers_and_clears_w :
    Channel.Pub chWaited 11 [4] = some
      ({ chWaited with
          messages := some (bufABC.Push { data := [4], created := 11 }),
          clients := [] },
       [(hIdle, { chanName := "c", mesg := { data := [4], created := 11 } })],
       none) :=
  pub_delivers_and_clears chWaited bufABC 11 [4] rfl

/-- C8: first configuration wins. When the registry already holds an
initialized channel under the name, `GetOrCreateChannel` is a pure lookup —
the channel (its `Size`, `Life`, `One2One`, `Key` and history buffer) and
the registry are returned unchanged, the call's arguments being ignored.
When the channel is absent or still uninitialized, those fields and a fresh
history buffer are set from the arguments and the channel is marked
initialized. -/
theorem getOrCreate_first_config_wins (reg : Registry) (name : String)
    (size : Nat) (life : Int) (one2one : Bool) (key : String) :
    (∀ ch, reg name = some ch → ch.inited = true →
      GetOrCreateChannel reg name size life one2one key = (ch, reg, none)) ∧
    (∀ ch, reg name = some ch → ch.inited = false →
      GetOrCreateChannel reg name size life one2one key =
        ({ ch with
            inited := true, size := size, life := life,
            one2one := one2one, key := key,
            messages := some (NewCircularMessageArray size) },
         fun n => if n = name then
            some { ch with
              inited := true, size := size, life := life,
              one2one := one2one, key := key,
              messages := some (NewCircularMessageArray size) }
          else reg n,
         none)) ∧
    (reg name = none →
      (GetOrCreateChannel reg name size life one2one key).1 =
        { name := name, size := size, life := life, key := key,
          clients := [], messages := some (NewCircularMessageArray size),
          one2one := one2one, inited := true }) := by
  refine ⟨fun ch hch hin => ?_, fun ch hch hin => ?_, fun hn => ?_⟩
  · simp [GetOrCreateChannel, GetChannel_, hch, hin]
  · simp [GetOrCreateChannel, GetChannel_, hch, hin]
  · simp [GetOrCreateChannel, GetChannel_, hn]

/-- Witness for C8: a second configuration call with different capacity,
retention, exclusivity and key on the already-initialized channel returns it
and the registry unchanged. -/
theorem getOrCreate_first_config_wins_w :
    GetOrCreateChannel regABC "c" 9 9 true "k" = (chABC, regABC, none) :=
  (getOrCreate_first_config_wins regABC "c" 9 9 true "k").1 chABC rfl rfl

/-- C10: `Json` ignores the error of `PeekNewest`; when the channel's buffer
is configured and non-empty it marshals the record `{"etag": newest
createdAt}`, and when the buffer is empty (or nil) the lookup fails, `m` is
a nil message, and `m.Created` dereferences nil — no value is produced. -/
theorem json_snapshot_safety (c : Channel) :
    (∀ buf m, c.messages = some buf → buf.PeekNewest = .ok m →
      c.Json = some { etag := m.created }) ∧
    (∀ buf, c.messages = some buf → buf.Length = 0 → c.Json = none) ∧
    (c.messages = none → c.Json = none) := by
  refine ⟨fun buf m hbuf hp => ?_, fun buf hbuf hlen => ?_, fun hn => ?_⟩
  · simp [Channel.Json, hbuf, hp]
  · have hnil : buf.msgs = [] := List.length_eq_zero.mp hlen
    simp [Channel.Json, hbuf, CircularMessageArray.PeekNewest, hnil]
  · simp [Channel.Json, hn]

/-- Witness for C10: the three-message channel snapshots to etag 9; the
empty-buffer channel and the unconfigured channel produce no value. -/
theorem json_snapshot_safety_w :
    chABC.Json = some { etag := 9 } ∧ chEmptyBuf.Json = none ∧
      chNilBuf.Json = none :=
  ⟨(json_snapshot_safety chABC).1 bufABC { data := [3], created := 9 } rfl rfl,
   (json_snapshot_safety chEmptyBuf).2.1 { cap := 3, msgs := [] } rfl rfl,
   (json_snapshot_safety chNilBuf).2.2 rfl⟩
